import Mathlib

/-!
Shallow embedding of `pwnlib/tubes/process.py` (the `process` tube class).

The Python class wraps a spawned child process.  We model the observable
state of a handle (`Popen` record for the `subprocess.Popen` object plus the
one-shot `_stop_noticed` flag) and embed each method as a pure function.
Interactions with the operating system (what `Popen.poll` observes, what
`select.select` does, what a `read`/`write` call returns) are passed in as
explicit outcome arguments, so every function is executable and total.
Raising an exception is modelled by a dedicated result constructor; emitted
log notifications are counted.
-/

namespace PwnProcess

/-- Byte strings as lists of byte values; the NUL byte is `0`. -/
abbrev Bytes := List Nat

/-! ## Argument / environment validator (`process._validate`) -/

/-- Python `arg.rstrip(null_byte)`: drop every trailing NUL byte. -/
def rstripNul (arg : Bytes) : Bytes :=
  (arg.reverse.dropWhile (· == 0)).reverse

/-- One iteration of the argv loop in `_validate`:
`if null_byte in arg[:-1]: log.error(...)` then `argv[i] = arg.rstrip(null_byte)`.
`log.error` aborts validation (modelled as `Except.error` carrying the
offending value, per the spec's `ValidationError`; the `log` module is not
part of this source file). -/
def checkEntry (arg : Bytes) : Except Bytes Bytes :=
  if 0 ∈ arg.dropLast then .error arg
  else .ok (rstripNul arg)

/-- The argv validation loop of `_validate` (lines 381-386): entries are
checked in order, the first offending entry aborts with an error carrying it. -/
def validateArgv : List Bytes → Except Bytes (List Bytes)
  | [] => .ok []
  | a :: rest =>
    match checkEntry a with
    | .error e => .error e
    | .ok a2 => (validateArgv rest).map (a2 :: ·)

/-- The environment validation loop of `_validate` (lines 439-447): for each
pair the key is checked first, then the value; both are NUL-stripped in the
result. -/
def validateEnv : List (Bytes × Bytes) → Except Bytes (List (Bytes × Bytes))
  | [] => .ok []
  | (k, v) :: rest =>
    if 0 ∈ k.dropLast then .error k
    else if 0 ∈ v.dropLast then .error v
    else (validateEnv rest).map ((rstripNul k, rstripNul v) :: ·)

/-! ## Launcher candidate loop (`process.__init__`, lines 264-294) -/

/-- `errno.ENOEXEC` on Linux. -/
def ENOEXEC : Nat := 8

/-- Outcome of one `subprocess.Popen` attempt: success, or an `OSError`
carrying its errno (the `tag` distinguishes distinct exception objects that
share an errno). -/
inductive SpawnOutcome
  | ok
  | osError (e : Nat) (tag : Nat)
deriving DecidableEq, Repr

/-- Result of the candidate loop. -/
inductive LaunchRes
  /-- `Popen` succeeded at candidate index `idx` (the `break`). -/
  | launched (idx : Nat)
  /-- a non-ENOEXEC `OSError` was re-raised immediately from the loop body. -/
  | raised (e : Nat) (tag : Nat)
  /-- the `for`-`else` branch: every candidate failed; the saved last
  exception (None if the loop never ran) is re-raised via `self.exception`.
  The re-raise behaviour of the logging helper is modelled from the spec:
  "exhausting all candidates without success re-raises the last fatal
  error" (the `log` module is not part of this source file). -/
  | exhausted (last : Option (Nat × Nat))
deriving DecidableEq, Repr

/-- The `for prefix, executable in prefixes` loop: try each candidate in
order; on `OSError` save it, re-raise unless its errno is `ENOEXEC`;
otherwise continue; the `else` clause re-raises the saved exception. -/
def launchLoop : List SpawnOutcome → Option (Nat × Nat) → Nat → LaunchRes
  | [], last, _ => .exhausted last
  | o :: rest, last, i =>
    match o with
    | .ok => .launched i
    | .osError e t =>
      if e ≠ ENOEXEC then .raised e t
      else launchLoop rest (some (e, t)) (i + 1)

/-- The candidate loop started on the full candidate list. -/
def launch (outcomes : List SpawnOutcome) : LaunchRes :=
  launchLoop outcomes none 0

/-! ## Child pre-exec routine (`process._preexec_fn`) -/

/-- The individual actions of `_preexec_fn`, in program order. -/
inductive Step
  | makeCtty
  | aslrOff
  | coreLimit
  | filterWrite
  | noNewPrivs
  | userHook
deriving DecidableEq, Repr

/-- `process._preexec_fn`, with one Boolean outcome per fallible OS action.
Returns the list of actions that completed, or `Except.error s` when action
`s` raised out of the routine.

* `_pty_make_controlling_tty` (run iff a pty fd was recorded) is not guarded:
  its failure propagates.
* the ASLR block (run iff `not self.aslr`) is wrapped in
  `try ... except: log.exception(...)`; per the spec the failure is logged
  and execution continues (the `log` module is not part of this source file).
* `resource.setrlimit(RLIMIT_CORE, (-1, -1))` is **not** wrapped in any
  `try`: its failure propagates.
* the `/proc/self/coredump_filter` write is wrapped in
  `try ... except Exception: pass`.
* the `prctl(PR_SET_NO_NEW_PRIVS, ...)` call (run iff `self._setuid is False`)
  is wrapped in `try ... except: pass`.
* finally the user-supplied hook runs. -/
def preexecFn (ptySet : Bool) (aslr : Bool) (setuid : Option Bool)
    (ttyOk aslrOk coreOk filterOk prctlOk : Bool) : Except Step (List Step) :=
  if ptySet && !ttyOk then .error .makeCtty
  else
    let l1 : List Step := if ptySet then [.makeCtty] else []
    let l2 : List Step :=
      l1 ++ (if !aslr then (if aslrOk then [.aslrOff] else []) else [])
    if !coreOk then .error .coreLimit
    else
      let l3 : List Step := l2 ++ [.coreLimit]
      let l4 : List Step := l3 ++ (if filterOk then [.filterWrite] else [])
      let l5 : List Step :=
        l4 ++ (if setuid == some false then
                 (if prctlOk then [.noNewPrivs] else []) else [])
      .ok (l5 ++ [.userHook])

/-- Whether a pre-exec run executed the given action. -/
def ranStep (r : Except Step (List Step)) (s : Step) : Bool :=
  match r with
  | .error _ => false
  | .ok l => l.contains s

/-- Whether a pre-exec run aborted by raising from the given action. -/
def raisedAt (r : Except Step (List Step)) (s : Step) : Bool :=
  match r with
  | .error t => t == s
  | .ok _ => false

/-! ## Handle state and lifecycle -/

/-- Observable state of the wrapped `subprocess.Popen` object:
the cached `returncode`, the `closed` flags of the stdin / stdout stream
objects, and the stderr stream slot (`none` when `proc.stderr is None`,
otherwise its `closed` flag). -/
structure Popen where
  returncode : Option Int
  stdinClosed : Bool
  stdoutClosed : Bool
  stderr : Option Bool
deriving DecidableEq, Repr

/-- State of the whole `process` object: the optional `Popen` (it is `None`
when spawning never succeeded) and the one-shot `_stop_noticed` flag. -/
structure PState where
  proc : Option Popen
  stopNoticed : Bool
deriving DecidableEq, Repr

/-- Result of a method call that touches the handle: updated `Popen`,
updated `_stop_noticed` flag, number of log notifications emitted, and the
call's own result. -/
structure Out (α : Type) where
  p : Popen
  noticed : Bool
  notifs : Nat
  res : α
deriving DecidableEq, Repr

/-- `subprocess.Popen.poll`: once `returncode` is set it is never re-observed;
otherwise the OS is consulted (`obs` is what it reports). -/
def procPoll (p : Popen) (obs : Option Int) : Popen :=
  match p.returncode with
  | some _ => p
  | none => { p with returncode := obs }

/-- `process.poll` with `block=False` (lines 498-517): refresh the exit
status, and on first observation of a set `returncode` emit the one-time
"stopped with exit code" notification and set `_stop_noticed`. -/
def poll (p : Popen) (noticed : Bool) (obs : Option Int) : Out (Option Int) :=
  let p2 := procPoll p obs
  if p2.returncode.isSome && !noticed then
    ⟨p2, true, 1, p2.returncode⟩
  else
    ⟨p2, noticed, 0, p2.returncode⟩

/-- Repeated `poll` calls, one OS observation per call; accumulates the
emitted notification count. -/
def pollIter (p : Popen) (noticed : Bool) : List (Option Int) → Popen × Bool × Nat
  | [] => (p, noticed, 0)
  | obs :: rest =>
    let o := poll p noticed obs
    let r := pollIter o.p o.noticed rest
    (r.1, r.2.1, o.notifs + r.2.2)

/-- `process.connected_raw` (lines 593-599): an `if`/`elif`/`elif` chain with
no `else`, so an unrecognized direction falls off the end and returns
Python `None` (modelled as `Option.none`). -/
def connected_raw (p : Popen) (noticed : Bool) (obs : Option Int)
    (direction : String) : Out (Option Bool) :=
  if direction = "any" then
    let o := poll p noticed obs
    ⟨o.p, o.noticed, o.notifs, some o.res.isNone⟩
  else if direction = "send" then ⟨p, noticed, 0, some (!p.stdinClosed)⟩
  else if direction = "recv" then ⟨p, noticed, 0, some (!p.stdoutClosed)⟩
  else ⟨p, noticed, 0, none⟩

/-- `process.close` on a spawned handle (`self.proc` not `None`):
poll once, close all non-`None` stream objects, and if the stop was still
unnoticed, kill and reap the child (`killOk = false` models the defensive
`except OSError: pass` branch where the kill raises and is swallowed);
`waitCode` is the status `proc.wait()` would record. -/
def closedFds (p : Popen) : Popen :=
  { p with stdinClosed := true, stdoutClosed := true,
           stderr := p.stderr.map fun _ => true }

def closeP (p : Popen) (noticed : Bool) (obs : Option Int) (waitCode : Int)
    (killOk : Bool) : Popen × Bool × Nat :=
  let o := poll p noticed obs
  let p2 : Popen := closedFds o.p
  if o.noticed then (p2, o.noticed, o.notifs)
  else if killOk then
    ({ p2 with returncode := some (p2.returncode.getD waitCode) }, true,
     o.notifs + 1)
  else (p2, o.noticed, o.notifs)

/-- `process.close` (lines 601-620): returns immediately when `self.proc`
is `None`. -/
def close (st : PState) (obs : Option Int) (waitCode : Int) (killOk : Bool) :
    PState × Nat :=
  match st.proc with
  | none => (st, 0)
  | some p =>
    let r := closeP p st.stopNoticed obs waitCode killOk
    (⟨some r.1, r.2.1⟩, r.2.2)

/-- `process.shutdown_raw` (lines 628-636): close the stdin object for
"send", the stdout object for "recv"; when both are closed, fall through to
`self.close()`. -/
def shutdown_raw (p : Popen) (noticed : Bool) (direction : String)
    (obs : Option Int) (waitCode : Int) (killOk : Bool) : Popen × Bool × Nat :=
  let p1 := if direction = "send" then { p with stdinClosed := true } else p
  let p2 := if direction = "recv" then { p1 with stdoutClosed := true } else p1
  if p2.stdinClosed && p2.stdoutClosed then closeP p2 noticed obs waitCode killOk
  else (p2, noticed, 0)

/-! ## Readiness and raw I/O -/

/-- `errno.EINTR`. -/
def EINTR : Nat := 4

/-- What the `select.select` call inside `can_recv_raw` does. -/
inductive SelectOutcome
  /-- returned `([self.proc.stdout], [], [])`: data is available. -/
  | ready
  /-- returned a different triple (timeout expired with nothing ready). -/
  | timedOut
  /-- raised `OSError`. -/
  | osError
  /-- raised `select.error` with `v[0] = e` (reaches the second handler). -/
  | selError (e : Nat)
deriving DecidableEq, Repr

/-- Result of `can_recv_raw`: either a returned Python value
(`some true` / `some false` / `none` for falling off the end of the
function) or a raised `EOFError`. -/
inductive CanRes
  | val (b : Option Bool)
  | eofRaised
deriving DecidableEq, Repr

/-- `process.can_recv_raw` (lines 572-591): an already-closed stdout object
makes `connected_raw` report false and the function returns `False`;
otherwise the select outcome decides: ready/timeout return a Boolean, an
`OSError` is turned into `EOFError`, a `select.error` returns `False` on
`EINTR` and otherwise falls off the end (Python `None`). -/
def can_recv_raw (p : Popen) (sel : SelectOutcome) : CanRes :=
  if p.stdoutClosed then .val (some false)
  else
    match sel with
    | .ready => .val (some true)
    | .timedOut => .val (some false)
    | .osError => .eofRaised
    | .selError e => if e = EINTR then .val (some false) else .val none

/-- What the single `self.proc.stdout.read(numb)` call does. -/
inductive ReadOutcome
  /-- returned these bytes (possibly empty). -/
  | bytesRead (bs : Bytes)
  /-- raised `IOError`. -/
  | ioError
deriving DecidableEq, Repr

/-- Result of `recv_raw`: returned bytes or a raised `EOFError`. -/
inductive RecvRes
  | data (bs : Bytes)
  | eofRaised
deriving DecidableEq, Repr

/-- The OS-interaction outcomes one `recv_raw` call can consume: the poll
observation, the select outcome, the read outcome, and (for the `close`
that a shutdown of the last open direction triggers) a second observation
with the kill/wait outcomes. -/
structure RecvEnv where
  obs : Option Int
  sel : SelectOutcome
  rd : ReadOutcome
  obs2 : Option Int
  waitCode : Int
  killOk : Bool
deriving DecidableEq, Repr

/-- `process.recv_raw` (lines 528-553): poll; raise `EOFError` when the
recv direction is not connected; return `b''` when `can_recv_raw` reports a
falsy value (and propagate its `EOFError`); otherwise perform the single
read with `data = b''` as the prior value and `except IOError: pass`, then
`if not data: self.shutdown("recv"); raise EOFError` (the tube layer's
`shutdown` delegating to `shutdown_raw` is modelled from the spec: "the recv
direction is shut down"; the tube base class is not part of this source
file). -/
def recv_raw (p : Popen) (noticed : Bool) (numb : Nat) (env : RecvEnv) :
    Out RecvRes :=
  let o := poll p noticed env.obs
  if o.p.stdoutClosed then ⟨o.p, o.noticed, o.notifs, .eofRaised⟩
  else
    match can_recv_raw o.p env.sel with
    | .eofRaised => ⟨o.p, o.noticed, o.notifs, .eofRaised⟩
    | .val v =>
      if v ≠ some true then ⟨o.p, o.noticed, o.notifs, .data []⟩
      else
        let dat : Bytes :=
          match env.rd with
          | .bytesRead bs => bs.take numb
          | .ioError => []
        if dat = [] then
          let s :=
            shutdown_raw o.p o.noticed "recv" env.obs2 env.waitCode env.killOk
          ⟨s.1, s.2.1, o.notifs + s.2.2, .eofRaised⟩
        else ⟨o.p, o.noticed, o.notifs, .data dat⟩

/-- What the `stdin.write(data)`/`stdin.flush()` pair does. -/
inductive WriteOutcome
  | ok
  | ioError
deriving DecidableEq, Repr

/-- Result of `send_raw`: normal return or a raised `EOFError`. -/
inductive SendRes
  | ok
  | eofRaised
deriving DecidableEq, Repr

/-- `process.send_raw` (lines 555-567): poll; raise `EOFError` when the send
direction is not connected; an `IOError` from the write/flush is re-raised
as `EOFError`. -/
def send_raw (p : Popen) (noticed : Bool) (obs : Option Int)
    (w : WriteOutcome) : Out SendRes :=
  let o := poll p noticed obs
  if o.p.stdinClosed then ⟨o.p, o.noticed, o.notifs, .eofRaised⟩
  else
    match w with
    | .ok => ⟨o.p, o.noticed, o.notifs, .ok⟩
    | .ioError => ⟨o.p, o.noticed, o.notifs, .eofRaised⟩

/-! ## Memory leaking (`process.leak`, lines 753-766) -/

/-- What the open/seek/read of `/proc/<pid>/mem` does. -/
inductive MemReadOutcome
  /-- the read returned these bytes. -/
  | ok (bs : Bytes)
  /-- opening, seeking or reading raised. -/
  | ioError
deriving DecidableEq, Repr

/-- Result of `leak`. -/
inductive LeakRes
  | bytesRes (bs : Bytes)
  | noneRes
  | raised
deriving DecidableEq, Repr

/-- `process.leak`: when the resolved `/proc/<pid>/exe` path names a QEMU
binary, `log.error` aborts (modelled from the spec: "fails loudly"; the
`log` module is not part of this source file).  Otherwise the memory
pseudo-file is opened, seeked and read: `return mem.read(count) or None`,
with no exception handling around the `with` block. -/
def leak (underQemu : Bool) (address : Nat) (count : Nat)
    (rd : MemReadOutcome) : LeakRes :=
  if underQemu then .raised
  else
    match rd with
    | .ioError => .raised
    | .ok bs =>
      let dat := bs.take count
      if dat = [] then .noneRes else .bytesRes dat

/-! ## Theorems -/

theorem poll_p (p : Popen) (n : Bool) (obs : Option Int) :
    (poll p n obs).p = procPoll p obs := by
  simp only [poll]
  split <;> rfl

theorem poll_res (p : Popen) (n : Bool) (obs : Option Int) :
    (poll p n obs).res = (procPoll p obs).returncode := by
  simp only [poll]
  split <;> rfl

theorem procPoll_stdinClosed (p : Popen) (obs : Option Int) :
    (procPoll p obs).stdinClosed = p.stdinClosed := by
  unfold procPoll
  cases p.returncode <;> rfl

theorem procPoll_stdoutClosed (p : Popen) (obs : Option Int) :
    (procPoll p obs).stdoutClosed = p.stdoutClosed := by
  unfold procPoll
  cases p.returncode <;> rfl

theorem poll_stationary (q : Popen) (hq : q.returncode.isSome = true)
    (obs : Option Int) : poll q true obs = ⟨q, true, 0, q.returncode⟩ := by
  have hpp : procPoll q obs = q := by
    unfold procPoll
    cases hc : q.returncode
    · rw [hc] at hq; cases hq
    · rfl
  simp [poll, hpp]

theorem pollIter_stationary (q : Popen) (hq : q.returncode.isSome = true)
    (obss : List (Option Int)) : pollIter q true obss = (q, true, 0) := by
  induction obss with
  | nil => rfl
  | cons o rest ih => simp [pollIter, poll_stationary q hq o, ih]

theorem closeP_closes (p : Popen) (n : Bool) (obs : Option Int) (w : Int)
    (ko : Bool) :
    (closeP p n obs w ko).1.stdinClosed = true ∧
    (closeP p n obs w ko).1.stdoutClosed = true := by
  simp only [closeP]
  split
  · exact ⟨rfl, rfl⟩
  · split
    · exact ⟨rfl, rfl⟩
    · exact ⟨rfl, rfl⟩

theorem shutdown_send_closes (p : Popen) (n : Bool) (obs : Option Int)
    (w : Int) (ko : Bool) :
    (shutdown_raw p n "send" obs w ko).1.stdinClosed = true := by
  have hne : (("send" : String) = "recv") = False := by simp
  have heq : (("send" : String) = "send") = True := by simp
  simp only [shutdown_raw, hne, heq, if_true, if_false]
  split
  · exact (closeP_closes _ _ _ _ _).1
  · rfl

theorem shutdown_recv_closes (p : Popen) (n : Bool) (obs : Option Int)
    (w : Int) (ko : Bool) :
    (shutdown_raw p n "recv" obs w ko).1.stdoutClosed = true := by
  have hne : (("recv" : String) = "send") = False := by simp
  have heq : (("recv" : String) = "recv") = True := by simp
  simp only [shutdown_raw, hne, heq, if_true, if_false]
  split
  · exact (closeP_closes _ _ _ _ _).2
  · rfl

theorem send_raw_closed (p : Popen) (n : Bool) (obs : Option Int)
    (wo : WriteOutcome) (h : p.stdinClosed = true) :
    (send_raw p n obs wo).res = .eofRaised := by
  have h2 : (poll p n obs).p.stdinClosed = true := by
    rw [poll_p, procPoll_stdinClosed]; exact h
  simp [send_raw, h2]

theorem recv_raw_closed (p : Popen) (n : Bool) (numb : Nat) (env : RecvEnv)
    (h : p.stdoutClosed = true) :
    (recv_raw p n numb env).res = .eofRaised := by
  have h2 : (poll p n env.obs).p.stdoutClosed = true := by
    rw [poll_p, procPoll_stdoutClosed]; exact h
  simp [recv_raw, h2]

/-- C3: after `shutdown_raw "send"` has closed the stdin object, every
subsequent `send_raw` raises `EOFError`; after `shutdown_raw "recv"` has
closed the stdout object, every subsequent `recv_raw` raises `EOFError` —
whatever the poll observations, write/read outcomes and the possible full
close triggered by the shutdown. -/
theorem shutdown_then_io_eof (p : Popen) (noticed : Bool)
    (obs obs2 : Option Int) (w : Int) (ko : Bool) (wo : WriteOutcome)
    (numb : Nat) (env : RecvEnv) :
    (send_raw (shutdown_raw p noticed "send" obs w ko).1
        (shutdown_raw p noticed "send" obs w ko).2.1 obs2 wo).res
      = .eofRaised ∧
    (recv_raw (shutdown_raw p noticed "recv" obs w ko).1
        (shutdown_raw p noticed "recv" obs w ko).2.1 numb env).res
      = .eofRaised := by
  exact ⟨send_raw_closed _ _ _ _ (shutdown_send_closes p noticed obs w ko),
         recv_raw_closed _ _ _ _ (shutdown_recv_closes p noticed obs w ko)⟩

/-- C4: the first `poll` that observes a set exit status emits the exit
notification exactly once and sets the one-shot flag; afterwards any single
further `poll` — and any finite sequence of further `poll` calls — emits
nothing and leaves the state unchanged, returning the same exit code. -/
theorem poll_notifies_once (p : Popen) (obs : Option Int) (c : Int)
    (h : (poll p false obs).res = some c) :
    (poll p false obs).notifs = 1 ∧ (poll p false obs).noticed = true ∧
    (∀ obs2, poll (poll p false obs).p true obs2
        = ⟨(poll p false obs).p, true, 0, some c⟩) ∧
    (∀ obss, pollIter (poll p false obs).p true obss
        = ((poll p false obs).p, true, 0)) := by
  have hsome : (procPoll p obs).returncode = some c := by
    rw [← poll_res p false obs]; exact h
  have hfirst : poll p false obs = ⟨procPoll p obs, true, 1, some c⟩ := by
    simp [poll, hsome]
  have hs : (procPoll p obs).returncode.isSome = true := by
    rw [hsome]; rfl
  refine ⟨by rw [hfirst], by rw [hfirst], ?_, ?_⟩
  · intro obs2
    rw [hfirst]
    simpa [hsome] using poll_stationary (procPoll p obs) hs obs2
  · intro obss
    rw [hfirst]
    exact pollIter_stationary (procPoll p obs) hs obss

/-- Witness for C4 at a concrete handle that exits with status 0 on the
first observation. -/
theorem poll_notifies_once_witness :
    (poll ⟨none, false, false, none⟩ false (some 0)).notifs = 1 ∧
    (poll ⟨none, false, false, none⟩ false (some 0)).noticed = true ∧
    (∀ obs2, poll (poll ⟨none, false, false, none⟩ false (some 0)).p true obs2
        = ⟨(poll ⟨none, false, false, none⟩ false (some 0)).p, true, 0,
           some 0⟩) ∧
    (∀ obss,
      pollIter (poll ⟨none, false, false, none⟩ false (some 0)).p true obss
        = ((poll ⟨none, false, false, none⟩ false (some 0)).p, true, 0)) :=
  poll_notifies_once ⟨none, false, false, none⟩ (some 0) 0 (by decide)

/-- C1 counterexample: on a connected recv direction whose readiness check
reports data available, an `IOError` from the single read leaves
`data = b''`, so `recv_raw` shuts the recv direction down and raises
`EOFError`; it does not return normally and it does not leave the recv
direction open. -/
theorem recv_raw_ioerror_cex :
    (recv_raw ⟨none, false, false, none⟩ false 4
        ⟨none, .ready, .ioError, none, 0, true⟩).res = .eofRaised ∧
    (recv_raw ⟨none, false, false, none⟩ false 4
        ⟨none, .ready, .ioError, none, 0, true⟩).p.stdoutClosed = true := by
  decide

/-- C1 amended: on a connected recv direction where the readiness check
reports data available, a transient I/O error raised by the single
non-blocking read is treated exactly like a zero-length successful read:
the recv direction is shut down and `EndOfFile` is raised. -/
theorem recv_raw_read_failure (p : Popen) (noticed : Bool) (numb : Nat)
    (env : RecvEnv) (hconn : p.stdoutClosed = false)
    (hsel : env.sel = .ready)
    (hrd : env.rd = .ioError ∨ env.rd = .bytesRead []) :
    (recv_raw p noticed numb env).res = .eofRaised ∧
    (recv_raw p noticed numb env).p.stdoutClosed = true := by
  have h2 : (poll p noticed env.obs).p.stdoutClosed = false := by
    rw [poll_p, procPoll_stdoutClosed]; exact hconn
  have hcan : can_recv_raw (poll p noticed env.obs).p env.sel
      = .val (some true) := by
    simp [can_recv_raw, h2, hsel]
  rcases hrd with h | h <;>
    exact ⟨by simp [recv_raw, h2, hcan, h],
           by simp [recv_raw, h2, hcan, h, shutdown_recv_closes]⟩

/-- Witness for C1's amended theorem at a concrete handle whose read comes
back zero-length. -/
theorem recv_raw_read_failure_witness :
    (recv_raw ⟨none, false, false, none⟩ false 8
        ⟨some 0, .ready, .bytesRead [], some 0, 0, true⟩).res = .eofRaised ∧
    (recv_raw ⟨none, false, false, none⟩ false 8
        ⟨some 0, .ready, .bytesRead [], some 0, 0, true⟩).p.stdoutClosed
      = true :=
  recv_raw_read_failure ⟨none, false, false, none⟩ false 8
    ⟨some 0, .ready, .bytesRead [], some 0, 0, true⟩ rfl rfl (Or.inr rfl)

theorem closeP_first (p : Popen) (s : Bool) (obs : Option Int) (w : Int)
    (hinv : s = true → p.returncode.isSome = true) :
    (closeP p s obs w true).1.stdinClosed = true ∧
    (closeP p s obs w true).1.stdoutClosed = true ∧
    (closeP p s obs w true).1.returncode.isSome = true ∧
    ((closeP p s obs w true).1.stderr = none ∨
      (closeP p s obs w true).1.stderr = some true) ∧
    (closeP p s obs w true).2.1 = true := by
  cases s with
  | true =>
    have hrc := hinv rfl
    have hpoll := poll_stationary p hrc obs
    refine ⟨?_, ?_, ?_, ?_, ?_⟩ <;>
      simp [closeP, closedFds, hpoll, hrc]
    cases p.stderr <;> simp
  | false =>
    rcases hc : p.returncode with _ | c
    · rcases ho : obs with _ | c2
      · refine ⟨?_, ?_, ?_, ?_, ?_⟩ <;>
          simp [closeP, closedFds, poll, procPoll, hc]
        cases p.stderr <;> simp
      · refine ⟨?_, ?_, ?_, ?_, ?_⟩ <;>
          simp [closeP, closedFds, poll, procPoll, hc, ho]
        cases p.stderr <;> simp
    · refine ⟨?_, ?_, ?_, ?_, ?_⟩ <;>
        simp [closeP, closedFds, poll, procPoll, hc]
      cases p.stderr <;> simp

theorem closeP_stationary (q : Popen) (obs : Option Int) (w : Int) (ko : Bool)
    (h1 : q.stdinClosed = true) (h2 : q.stdoutClosed = true)
    (h3 : q.returncode.isSome = true)
    (h4 : q.stderr = none ∨ q.stderr = some true) :
    closeP q true obs w ko = (q, true, 0) := by
  have hpoll := poll_stationary q h3 obs
  have hq : closedFds q = q := by
    rcases h4 with h | h <;> cases q <;> simp_all [closedFds]
  simp [closeP, hpoll, hq]

/-- C5: `close` is idempotent: on a handle that was never spawned it is a
no-op, and on a spawned handle a second `close` (whatever it observes)
returns the exact state the first `close` produced and emits nothing; after
the first `close` the descriptors are closed, the child is reaped and the
stop-noticed flag is set.  The hypothesis is the reachable-state invariant
that the stop-noticed flag is only ever set after an exit status was
recorded. -/
theorem close_idempotent (p : Popen) (s : Bool) (obs obs2 : Option Int)
    (w w2 : Int) (ko2 : Bool)
    (hinv : s = true → p.returncode.isSome = true) :
    (∀ obs0 w0 ko0, close ⟨none, s⟩ obs0 w0 ko0 = (⟨none, s⟩, 0)) ∧
    close (close ⟨some p, s⟩ obs w true).1 obs2 w2 ko2
      = ((close ⟨some p, s⟩ obs w true).1, 0) ∧
    (close ⟨some p, s⟩ obs w true).1.stopNoticed = true ∧
    (∃ q, (close ⟨some p, s⟩ obs w true).1.proc = some q ∧
      q.stdinClosed = true ∧ q.stdoutClosed = true ∧
      q.returncode.isSome = true) := by
  have hf := closeP_first p s obs w hinv
  have hcl1 : (close ⟨some p, s⟩ obs w true).1
      = ⟨some (closeP p s obs w true).1, true⟩ := by
    show (⟨some (closeP p s obs w true).1, (closeP p s obs w true).2.1⟩ :
        PState) = _
    rw [hf.2.2.2.2]
  have hst := closeP_stationary (closeP p s obs w true).1 obs2 w2 ko2
    hf.1 hf.2.1 hf.2.2.1 hf.2.2.2.1
  refine ⟨fun obs0 w0 ko0 => rfl, ?_, ?_, ?_⟩
  · rw [hcl1]
    show (⟨some (closeP (closeP p s obs w true).1 true obs2 w2 ko2).1,
            (closeP (closeP p s obs w true).1 true obs2 w2 ko2).2.1⟩,
          (closeP (closeP p s obs w true).1 true obs2 w2 ko2).2.2)
        = ((⟨some (closeP p s obs w true).1, true⟩ : PState), 0)
    rw [hst]
  · rw [hcl1]
  · rw [hcl1]
    exact ⟨(closeP p s obs w true).1, rfl, hf.1, hf.2.1, hf.2.2.1⟩

/-- Witness for C5 at a concrete freshly spawned handle. -/
theorem close_idempotent_witness :
    (∀ obs0 w0 ko0, close ⟨none, false⟩ obs0 w0 ko0 = (⟨none, false⟩, 0)) ∧
    close (close ⟨some ⟨none, false, false, some false⟩, false⟩
        none 9 true).1 (some 9) 7 false
      = ((close ⟨some ⟨none, false, false, some false⟩, false⟩
          none 9 true).1, 0) ∧
    (close ⟨some ⟨none, false, false, some false⟩, false⟩
        none 9 true).1.stopNoticed = true ∧
    (∃ q, (close ⟨some ⟨none, false, false, some false⟩, false⟩
        none 9 true).1.proc = some q ∧
      q.stdinClosed = true ∧ q.stdoutClosed = true ∧
      q.returncode.isSome = true) :=
  close_idempotent ⟨none, false, false, some false⟩ false none (some 9) 9 7
    false (fun h => by cases h)

/-- C10: for every direction argument other than "any", "send" and "recv",
`connected_raw` returns Python `None` (a falsy non-boolean) and neither
raises nor touches the handle state. -/
theorem connected_raw_unknown_direction (p : Popen) (noticed : Bool)
    (obs : Option Int) (d : String)
    (h1 : d ≠ "any") (h2 : d ≠ "send") (h3 : d ≠ "recv") :
    connected_raw p noticed obs d = ⟨p, noticed, 0, none⟩ := by
  simp [connected_raw, h1, h2, h3]

/-- Witness for C10 at the concrete direction "sendrecv". -/
theorem connected_raw_unknown_direction_witness :
    connected_raw ⟨none, false, false, none⟩ false none "sendrecv"
      = ⟨⟨none, false, false, none⟩, false, 0, none⟩ :=
  connected_raw_unknown_direction ⟨none, false, false, none⟩ false none
    "sendrecv" (by decide) (by decide) (by decide)

theorem head_dropWhileNul (l : List Nat) :
    (l.dropWhile (· == 0)).head? ≠ some 0 := by
  induction l with
  | nil => simp
  | cons x xs ih =>
    by_cases hx : x = 0
    · simpa [List.dropWhile_cons, hx] using ih
    · simp [List.dropWhile_cons, hx]

theorem rstripNul_no_trailing (a : Bytes) :
    (rstripNul a).getLast? ≠ some 0 := by
  unfold rstripNul
  rw [List.getLast?_reverse]
  exact head_dropWhileNul a.reverse

theorem validateArgv_ok (argv : List Bytes)
    (h : ∀ a ∈ argv, 0 ∉ a.dropLast) :
    validateArgv argv = .ok (argv.map rstripNul) := by
  induction argv with
  | nil => rfl
  | cons a rest ih =>
    have ha : 0 ∉ a.dropLast := h a (by simp)
    have hrest := ih fun x hx => h x (by simp [hx])
    simp [validateArgv, checkEntry, ha, hrest, Except.map]

theorem validateArgv_err (argv : List Bytes)
    (h : ∃ a ∈ argv, 0 ∈ a.dropLast) :
    ∃ e, validateArgv argv = .error e ∧ e ∈ argv ∧ 0 ∈ e.dropLast := by
  induction argv with
  | nil => simp at h
  | cons a rest ih =>
    by_cases ha : 0 ∈ a.dropLast
    · exact ⟨a, by simp [validateArgv, checkEntry, ha], by simp, ha⟩
    · have hrest : ∃ x ∈ rest, 0 ∈ x.dropLast := by
        rcases h with ⟨x, hx, h0⟩
        rcases List.mem_cons.1 hx with rfl | hx2
        · exact absurd h0 ha
        · exact ⟨x, hx2, h0⟩
      rcases ih hrest with ⟨e, he, hmem, h0⟩
      exact ⟨e, by simp [validateArgv, checkEntry, ha, he, Except.map], by simp [hmem], h0⟩

theorem validateEnv_ok (env : List (Bytes × Bytes))
    (h : ∀ kv ∈ env, 0 ∉ kv.1.dropLast ∧ 0 ∉ kv.2.dropLast) :
    validateEnv env
      = .ok (env.map fun kv => (rstripNul kv.1, rstripNul kv.2)) := by
  induction env with
  | nil => rfl
  | cons kv rest ih =>
    have hk := (h kv (by simp)).1
    have hv := (h kv (by simp)).2
    have hrest := ih fun x hx => h x (by simp [hx])
    simp [validateEnv, hk, hv, hrest, Except.map]

theorem validateEnv_err (env : List (Bytes × Bytes))
    (h : ∃ kv ∈ env, 0 ∈ kv.1.dropLast ∨ 0 ∈ kv.2.dropLast) :
    ∃ e, validateEnv env = .error e ∧ 0 ∈ e.dropLast ∧
      ∃ kv ∈ env, e = kv.1 ∨ e = kv.2 := by
  induction env with
  | nil => simp at h
  | cons kv rest ih =>
    by_cases hk : 0 ∈ kv.1.dropLast
    · exact ⟨kv.1, by simp [validateEnv, hk], hk, kv, by simp, Or.inl rfl⟩
    · by_cases hv : 0 ∈ kv.2.dropLast
      · exact ⟨kv.2, by simp [validateEnv, hk, hv], hv, kv, by simp,
          Or.inr rfl⟩
      · have hrest : ∃ x ∈ rest, 0 ∈ x.1.dropLast ∨ 0 ∈ x.2.dropLast := by
          rcases h with ⟨x, hx, h0⟩
          rcases List.mem_cons.1 hx with rfl | hx2
          · rcases h0 with h0 | h0
            · exact absurd h0 hk
            · exact absurd h0 hv
          · exact ⟨x, hx2, h0⟩
        rcases ih hrest with ⟨e, he, h0, x, hx, hor⟩
        exact ⟨e, by simp [validateEnv, hk, hv, he, Except.map], h0, x, by simp [hx], hor⟩

/-- C6: entries whose every NUL byte sits at the very end pass validation
with all trailing NUL bytes stripped (so no returned value ends in NUL),
while a NUL before an entry's final position makes validation fail with an
error carrying that offending argv entry (resp. env key or value). -/
theorem validate_nul_handling (argv : List Bytes)
    (env : List (Bytes × Bytes)) :
    ((∀ a ∈ argv, 0 ∉ a.dropLast) →
      validateArgv argv = .ok (argv.map rstripNul) ∧
      ∀ r ∈ argv.map rstripNul, r.getLast? ≠ some 0) ∧
    ((∃ a ∈ argv, 0 ∈ a.dropLast) →
      ∃ e, validateArgv argv = .error e ∧ e ∈ argv ∧ 0 ∈ e.dropLast) ∧
    ((∀ kv ∈ env, 0 ∉ kv.1.dropLast ∧ 0 ∉ kv.2.dropLast) →
      validateEnv env
          = .ok (env.map fun kv => (rstripNul kv.1, rstripNul kv.2)) ∧
      ∀ kv ∈ env.map (fun kv => (rstripNul kv.1, rstripNul kv.2)),
        kv.1.getLast? ≠ some 0 ∧ kv.2.getLast? ≠ some 0) ∧
    ((∃ kv ∈ env, 0 ∈ kv.1.dropLast ∨ 0 ∈ kv.2.dropLast) →
      ∃ e, validateEnv env = .error e ∧ 0 ∈ e.dropLast ∧
        ∃ kv ∈ env, e = kv.1 ∨ e = kv.2) := by
  refine ⟨fun h => ⟨validateArgv_ok argv h, ?_⟩, validateArgv_err argv,
    fun h => ⟨validateEnv_ok env h, ?_⟩, validateEnv_err env⟩
  · intro r hr
    rcases List.mem_map.1 hr with ⟨a, _, rfl⟩
    exact rstripNul_no_trailing a
  · intro kv hkv
    rcases List.mem_map.1 hkv with ⟨x, _, rfl⟩
    exact ⟨rstripNul_no_trailing x.1, rstripNul_no_trailing x.2⟩

/-- Witness for C6: a clean argv (one trailing NUL) validates and is
stripped; an argv with an interior NUL fails carrying the offending entry;
same for an env pair. -/
theorem validate_nul_handling_witness :
    validateArgv [[65, 0], [66]] = .ok [[65], [66]] ∧
    (∃ e, validateArgv [[66], [65, 0, 65]] = .error e ∧
      e ∈ [[66], [65, 0, 65]] ∧ 0 ∈ e.dropLast) ∧
    validateEnv [([75, 0], [86, 0])] = .ok [([75], [86])] ∧
    (∃ e, validateEnv [([75], [86, 0, 86])] = .error e ∧ 0 ∈ e.dropLast ∧
      ∃ kv ∈ [([75], [86, 0, 86])], e = kv.1 ∨ e = kv.2) := by
  refine ⟨?_, ?_, ?_, ?_⟩
  · have h := (validate_nul_handling [[65, 0], [66]] []).1 (by decide)
    simpa [rstripNul] using h.1
  · exact (validate_nul_handling [[66], [65, 0, 65]] []).2.1
      ⟨[65, 0, 65], by simp, by decide⟩
  · have h := (validate_nul_handling [] [([75, 0], [86, 0])]).2.2.1
      (by decide)
    simpa [rstripNul] using h.1
  · exact (validate_nul_handling [] [([75], [86, 0, 86])]).2.2.2
      ⟨([75], [86, 0, 86]), by simp, Or.inr (by decide)⟩

theorem launchLoop_ok (pre post : List SpawnOutcome)
    (last : Option (Nat × Nat)) (i : Nat)
    (h : ∀ x ∈ pre, ∃ t, x = SpawnOutcome.osError ENOEXEC t) :
    launchLoop (pre ++ SpawnOutcome.ok :: post) last i
      = .launched (i + pre.length) := by
  induction pre generalizing last i with
  | nil => simp [launchLoop]
  | cons x xs ih =>
    rcases h x (by simp) with ⟨t, rfl⟩
    have h2 := ih (some (ENOEXEC, t)) (i + 1) (fun y hy => h y (by simp [hy]))
    have h3 : launchLoop
        (SpawnOutcome.osError ENOEXEC t :: xs ++ SpawnOutcome.ok :: post)
        last i
        = launchLoop (xs ++ SpawnOutcome.ok :: post) (some (ENOEXEC, t))
          (i + 1) := by
      simp [launchLoop]
    rw [h3, h2]
    congr 1
    simp only [List.length_cons]
    omega

theorem launchLoop_raise (pre post : List SpawnOutcome)
    (last : Option (Nat × Nat)) (i : Nat) (e t : Nat)
    (h : ∀ x ∈ pre, ∃ u, x = SpawnOutcome.osError ENOEXEC u)
    (he : e ≠ ENOEXEC) :
    launchLoop (pre ++ SpawnOutcome.osError e t :: post) last i
      = .raised e t := by
  induction pre generalizing last i with
  | nil => simp [launchLoop, he]
  | cons x xs ih =>
    rcases h x (by simp) with ⟨u, rfl⟩
    have h2 := ih (some (ENOEXEC, u)) (i + 1) (fun y hy => h y (by simp [hy]))
    have h3 : launchLoop
        (SpawnOutcome.osError ENOEXEC u :: xs
          ++ SpawnOutcome.osError e t :: post) last i
        = launchLoop (xs ++ SpawnOutcome.osError e t :: post)
          (some (ENOEXEC, u)) (i + 1) := by
      simp [launchLoop]
    rw [h3, h2]

theorem launchLoop_exhaust (pre : List SpawnOutcome)
    (last : Option (Nat × Nat)) (i : Nat) (u : Nat)
    (h : ∀ x ∈ pre, ∃ t, x = SpawnOutcome.osError ENOEXEC t) :
    launchLoop (pre ++ [SpawnOutcome.osError ENOEXEC u]) last i
      = .exhausted (some (ENOEXEC, u)) := by
  induction pre generalizing last i with
  | nil => simp [launchLoop]
  | cons x xs ih =>
    rcases h x (by simp) with ⟨t, rfl⟩
    have h2 := ih (some (ENOEXEC, t)) (i + 1) (fun y hy => h y (by simp [hy]))
    have h3 : launchLoop
        (SpawnOutcome.osError ENOEXEC t :: xs
          ++ [SpawnOutcome.osError ENOEXEC u]) last i
        = launchLoop (xs ++ [SpawnOutcome.osError ENOEXEC u])
          (some (ENOEXEC, t)) (i + 1) := by
      simp [launchLoop]
    rw [h3, h2]

/-- C2: candidates are tried in order — with every earlier candidate failing
with `ENOEXEC`, a successful attempt launches at its own index, a failure
with any other errno is raised immediately, and when every candidate fails
with `ENOEXEC` the loop ends with the last such exception re-raised. -/
theorem launch_candidate_order (pre post : List SpawnOutcome) (e t u : Nat)
    (h : ∀ x ∈ pre, ∃ v, x = SpawnOutcome.osError ENOEXEC v)
    (he : e ≠ ENOEXEC) :
    launch (pre ++ SpawnOutcome.ok :: post) = .launched pre.length ∧
    launch (pre ++ SpawnOutcome.osError e t :: post) = .raised e t ∧
    launch (pre ++ [SpawnOutcome.osError ENOEXEC u])
      = .exhausted (some (ENOEXEC, u)) := by
  refine ⟨?_, launchLoop_raise pre post none 0 e t h he,
    launchLoop_exhaust pre none 0 u h⟩
  simpa using launchLoop_ok pre post none 0 h

/-- Witness for C2: one `ENOEXEC` failure followed by a success launches at
index 1; a candidate list of two `ENOEXEC` failures re-raises the second;
an `EACCES` (13) failure raises immediately. -/
theorem launch_candidate_order_witness :
    launch [SpawnOutcome.osError 8 0, SpawnOutcome.ok] = .launched 1 ∧
    launch [SpawnOutcome.osError 8 0, SpawnOutcome.osError 13 1]
      = .raised 13 1 ∧
    launch [SpawnOutcome.osError 8 0, SpawnOutcome.osError 8 1]
      = .exhausted (some (8, 1)) := by
  have h := launch_candidate_order [SpawnOutcome.osError 8 0] [] 13 1 1
    (by intro x hx; simp at hx; exact ⟨0, hx⟩) (by decide)
  exact ⟨h.1, h.2.1, h.2.2⟩

/-- C7 counterexample: `can_recv_raw` on a handle whose recv stream is
already closed returns the Boolean `False`; it does not raise `EOFError`. -/
theorem can_recv_raw_closed_cex :
    can_recv_raw ⟨none, false, true, none⟩ .ready = .val (some false) ∧
    can_recv_raw ⟨none, false, true, none⟩ .ready ≠ .eofRaised := by
  constructor <;> decide

/-- C7 amended: when the recv stream object is already marked closed,
`can_recv_raw` returns `False` without consulting readiness; `EOFError` is
raised only when the stream is not marked closed but the readiness wait
itself fails with an `OSError`. -/
theorem can_recv_raw_closed_behavior (p q : Popen) (sel : SelectOutcome)
    (h : p.stdoutClosed = true) (hq : q.stdoutClosed = false) :
    can_recv_raw p sel = .val (some false) ∧
    can_recv_raw q .osError = .eofRaised := by
  constructor
  · simp [can_recv_raw, h]
  · simp [can_recv_raw, hq]

/-- Witness for C7's amended theorem at concrete handles. -/
theorem can_recv_raw_closed_behavior_witness :
    can_recv_raw ⟨none, false, true, none⟩ .timedOut = .val (some false) ∧
    can_recv_raw ⟨none, false, false, none⟩ .osError = .eofRaised :=
  can_recv_raw_closed_behavior ⟨none, false, true, none⟩
    ⟨none, false, false, none⟩ .timedOut rfl rfl

/-- C9 counterexample: a failing open/seek/read of the memory pseudo-file
makes `leak` raise; it does not return `None`. -/
theorem leak_failed_read_cex :
    leak false 4096 8 .ioError = .raised ∧
    leak false 4096 8 .ioError ≠ .noneRes := by
  constructor <;> decide

/-- C9 amended: `leak` raises whenever the process runs under emulation;
otherwise it returns `None` exactly when the read comes back empty, a short
(or full) read returns the bytes that were read, and a failing
open/seek/read propagates the error rather than returning `None`. -/
theorem leak_behavior (address count : Nat) (bs : Bytes)
    (hbs : bs.take count ≠ []) :
    (∀ rd, leak true address count rd = .raised) ∧
    leak false address count .ioError = .raised ∧
    leak false address count (.ok []) = .noneRes ∧
    leak false address count (.ok bs) = .bytesRes (bs.take count) := by
  refine ⟨fun rd => rfl, rfl, by simp [leak], ?_⟩
  simp [leak, hbs]

/-- Witness for C9's amended theorem: a short read (3 of 8 requested bytes)
returns those 3 bytes. -/
theorem leak_behavior_witness :
    leak true 4096 8 .ioError = .raised ∧
    leak false 4096 8 .ioError = .raised ∧
    leak false 4096 8 (.ok []) = .noneRes ∧
    leak false 4096 8 (.ok [1, 2, 3]) = .bytesRes [1, 2, 3] := by
  have h := leak_behavior 4096 8 [1, 2, 3] (by decide)
  exact ⟨h.1 .ioError, h.2.1, h.2.2.1, by simpa using h.2.2.2⟩

/-- C8 counterexample: when `resource.setrlimit(RLIMIT_CORE, (-1, -1))`
fails, `_preexec_fn` raises out of the routine and no later step (not even
the user hook) runs — the call is not guarded by any `try`. -/
theorem preexec_core_limit_cex :
    raisedAt (preexecFn false true none true true false true true)
        .coreLimit = true ∧
    ranStep (preexecFn false true none true true false true true)
        .userHook = false := by
  decide

/-- C8 amended: of the two core-dump steps only the content-filter write is
best-effort — its failure is swallowed and the routine continues through the
remaining steps (the user hook still runs) — while a failure raising the
core-dump size limit propagates and aborts the routine. -/
theorem preexec_coredump_behavior (ptySet aslr : Bool) (setuid : Option Bool)
    (ttyOk aslrOk filterOk prctlOk : Bool)
    (htty : ptySet = true → ttyOk = true) :
    ranStep (preexecFn ptySet aslr setuid ttyOk aslrOk true filterOk prctlOk)
        .userHook = true ∧
    (filterOk = false →
      ranStep (preexecFn ptySet aslr setuid ttyOk aslrOk true filterOk prctlOk)
          .filterWrite = false) ∧
    raisedAt (preexecFn ptySet aslr setuid ttyOk aslrOk false filterOk prctlOk)
        .coreLimit = true := by
  cases ptySet <;> cases aslr <;> cases ttyOk <;> cases aslrOk <;>
    cases filterOk <;> cases prctlOk <;> rcases setuid with _ | b <;>
    (try cases b) <;>
    first
      | exact absurd (htty rfl) (by decide)
      | decide

/-- Witness for C8's amended theorem: with every other step succeeding and
the filter write failing, the routine completes and runs the user hook; with
the core-limit step failing it aborts. -/
theorem preexec_coredump_behavior_witness :
    ranStep (preexecFn false true none true true true false true)
        .userHook = true ∧
    (false = false →
      ranStep (preexecFn false true none true true true false true)
          .filterWrite = false) ∧
    raisedAt (preexecFn false true none true true false false true)
        .coreLimit = true :=
  preexec_coredump_behavior false true none true true false true
    (fun h => by cases h)

end PwnProcess
